import Mathlib

/-!
# kom: fluent statement builder, SQL entry point and Create/Delete callbacks

A shallow embedding of `kom/sql_builder.go`, `kom/sql.go`, `callbacks/create.go`
and `callbacks/delete.go`.

* Go strings are modelled as lists of characters (`Str`); the functions of the
  Go `strings` package used by the code are defined on them.
* A `*Kubectl` is modelled by the value it points to.  A method returns the
  contents of the `tx` it returns.
* Code of the package that is not part of the source tree at hand
  (`getInstance`, `AllNamespace`, `ParseGVKs`, `WithLabelSelector`, ...) and the
  third-party SQL parser are parameters, collected in `Deps`; the callback
  registry behind the terminal verbs is the parameter `Callbacks`.
* Process termination (`log.Fatalf`) and a nil-pointer dereference are explicit
  results (`Outcome`).
-/

set_option autoImplicit false

namespace Kom

/-- A Go string, as the list of its characters. -/
abbrev Str := List Char

/-! ## The Go `strings` and `unicode` functions used by the code -/

/-- Go `unicode.IsSpace`: the Latin-1 spaces `\t \n \v \f \r`, space, U+0085,
U+00A0, and the other code points with the White_Space property. -/
def isSpace (c : Char) : Bool :=
  let n := c.toNat
  (9 ≤ n && n ≤ 13) || n == 32 || n == 0x85 || n == 0xA0 || n == 0x1680 ||
  (0x2000 ≤ n && n ≤ 0x200A) || n == 0x2028 || n == 0x2029 || n == 0x202F ||
  n == 0x205F || n == 0x3000

/-- Leading white space removed. -/
def trimLeft (s : Str) : Str := s.dropWhile isSpace

/-- Trailing white space removed. -/
def trimRight (s : Str) : Str := (s.reverse.dropWhile isSpace).reverse

/-- Go `strings.TrimSpace`: the slice between the first and the last character
that is not white space. -/
def TrimSpace (s : Str) : Str := trimRight (trimLeft s)

/-- Scanner of `strings.Split` for a non-empty separator: `skip` counts the
characters of a separator just matched that are still to be passed over, `cur`
is the current piece, reversed. -/
def splitGo (sep : Str) : Nat → Str → Str → List Str
  | _, cur, [] => [cur.reverse]
  | skip + 1, cur, _ :: cs => splitGo sep skip cur cs
  | 0, cur, c :: cs =>
    if sep.isPrefixOf (c :: cs) then cur.reverse :: splitGo sep (sep.length - 1) [] cs
    else splitGo sep 0 (c :: cur) cs

/-- Go `strings.Split(s, sep)`: the pieces of `s` between the successive
leftmost, non-overlapping occurrences of `sep`; with an empty separator the
string is cut after each character. -/
def Split (s sep : Str) : List Str :=
  if sep = [] then s.map (fun c => [c]) else splitGo sep 0 [] s

/-- The text before and after the leftmost occurrence of a non-empty `sep`. -/
def cut (sep : Str) : Str → Option (Str × Str)
  | [] => none
  | c :: cs =>
    if sep.isPrefixOf (c :: cs) then some ([], (c :: cs).drop sep.length)
    else (cut sep cs).map (fun p => (c :: p.1, p.2))

/-- Go `strings.SplitN(s, sep, 2)` for a non-empty `sep`: at most two pieces,
the second one being the unsplit remainder. -/
def SplitN2 (s sep : Str) : List Str :=
  match cut sep s with
  | some (a, b) => [a, b]
  | none => [s]

/-- Go `strings.Replace(s, old, new, 1)`: the leftmost occurrence of `old`
replaced by `new` (an empty `old` matches at the start). -/
def Replace1 (old new : Str) : Str → Str
  | [] => if old = [] then new else []
  | c :: cs =>
    if old.isPrefixOf (c :: cs) then new ++ (c :: cs).drop old.length
    else c :: Replace1 old new cs

/-- Go `strings.Join`: nothing for no element, the element itself for one, and
otherwise the elements with `sep` between them. -/
def Join : List Str → Str → Str
  | [], _ => []
  | [a], _ => a
  | a :: b :: l, sep => a ++ sep ++ Join (b :: l) sep

/-! ## Data model -/

/-- The `schema.GroupVersionKind` triple. -/
structure GroupVersionKind where
  Group : Str
  Version : Str
  Kind : Str
deriving DecidableEq

/-- The `schema.GroupVersionResource` triple. -/
structure GroupVersionResource where
  Group : Str
  Version : Str
  Resource : Str
deriving DecidableEq

/-- One parsed WHERE predicate. -/
structure Condition where
  Depth : Nat
  AndOr : Str
  Field : Str
  Operator : Str
  Value : Str
  ValueType : Str
deriving DecidableEq

/-- The filter of a statement. -/
structure Filter where
  Conditions : List Condition
  Order : Str
  Limit : Int
  Offset : Int
deriving DecidableEq

/-- The selectors of a `metav1.ListOptions`. -/
structure ListOptions where
  LabelSelector : Str
  FieldSelector : Str
deriving DecidableEq

/-- The fields of a `v1.PodLogOptions` the callers set. -/
structure PodLogOptions where
  Container : Str
  Follow : Bool
  Previous : Bool
  TailLines : Option Int
deriving DecidableEq

/-- The per-chain statement; `D` is the type of destinations and `Context` the
identity of the cancellation token. -/
structure Statement (D : Type) where
  GVK : GroupVersionKind
  GVR : GroupVersionResource
  Namespaced : Bool
  Namespace : Str
  Name : Str
  ContainerName : Str
  Context : Nat
  Dest : Option D
  ListOptions : List ListOptions
  PatchType : Str
  PatchData : Str
  PodLogOptions : Option PodLogOptions
  AllNamespace : Bool
  Filter : Filter
  useCustomGVK : Bool
deriving DecidableEq

/-- The value a `*Kubectl` points to: its statement and its error (`none` is
Go's `nil`). -/
structure Kubectl (D : Type) where
  Statement : Statement D
  Error : Option Str
deriving DecidableEq

/-- What a call produces: it returns, or the process is terminated by
`log.Fatalf`, or the goroutine faults on a nil pointer. -/
inductive Outcome (α : Type) where
  | returned (tx : α)
  | fatal (msg : Str)
  | nilDeref
deriving DecidableEq

/-! ## The SQL syntax tree of the third-party parser -/

/-- An expression node (`sqlparser.Expr`). -/
inductive SQLExpr where
  | val (text : Str)
  | col (name : Str)
  | cmp (op : Str) (l r : SQLExpr)
  | and (l r : SQLExpr)
  | or (l r : SQLExpr)
  | paren (e : SQLExpr)
deriving DecidableEq

/-- The node `sqlparser.Where`. -/
structure WhereNode where
  Typ : Str
  Expr : SQLExpr
deriving DecidableEq

/-- The node `sqlparser.Limit`; both fields are interface values and may be nil. -/
structure LimitNode where
  Offset : Option SQLExpr
  Rowcount : Option SQLExpr
deriving DecidableEq

/-- The node `sqlparser.Select`, with the fields the code reads: `From` lists
the table expressions, `Where` and `Limit` are pointers that are nil when the
clause is absent. -/
structure Select where
  From : List SQLExpr
  Where : Option WhereNode
  Limit : Option LimitNode
deriving DecidableEq

/-- A parsed statement (`sqlparser.Statement`): a `*Select` or a node of another
kind (`*Update`, `*Delete`, `*Insert`, ...). -/
inductive SQLStatement where
  | select (s : Select)
  | other (kind : Str)
deriving DecidableEq

/-! ## Code outside the source tree, as parameters -/

/-- The functions the code calls that are not in the source tree. -/
structure Deps (D : Type) where
  /-- The receiver's working copy: `k.getInstance()`. -/
  getInstance : Kubectl D → Kubectl D
  /-- The effect of `tx.AllNamespace()` on the working copy. -/
  AllNamespace : Kubectl D → Kubectl D
  /-- The effect of `Statement.ParseGVKs`. -/
  ParseGVKs : Statement D → List GroupVersionKind → Statement D
  /-- The effect of `tx.WithLabelSelector(s)` on the working copy. -/
  WithLabelSelector : Kubectl D → Str → Kubectl D
  /-- The effect of `tx.WithFieldSelector(s)` on the working copy. -/
  WithFieldSelector : Kubectl D → Str → Kubectl D
  /-- The lookup `k.Tools().FindGVKByTableNameInApiResources`. -/
  FindGVKByTableNameInApiResources : Str → Option GroupVersionKind
  /-- The lookup `k.Tools().FindGVKByTableNameInCRDList`. -/
  FindGVKByTableNameInCRDList : Str → Option GroupVersionKind
  /-- The conversion `utils.ToInt`. -/
  ToInt : Str → Int
  /-- The translation `parseWhereExpr`. -/
  parseWhereExpr : List Condition → Nat → Str → SQLExpr → List Condition
  /-- The detection `detectType`: the value type and the reformatted value. -/
  detectType : Str → Str × Str
  /-- The parser `sqlparser.Parse`. -/
  Parse : Str → Except Str SQLStatement
  /-- The printer `sqlparser.String` on table expressions. -/
  StringFrom : List SQLExpr → Str
  /-- The printer `sqlparser.String` on a non-nil expression. -/
  StringExpr : SQLExpr → Str

/-- Modelled from the spec: `getInstance` is not in the source tree. Section 4.1:
each setter returns a working copy scoped to the current chain. When the
receiver already is the chain's working copy `tx`, the working copy is `tx`
itself, so a setter called on `tx` with its result dropped updates `tx`. -/
def getInstanceOfCopy {D : Type} (tx : Kubectl D) : Kubectl D := tx

/-- The parameters as seen by a call on the working copy. -/
def Deps.inChain {D : Type} (d : Deps D) : Deps D :=
  { d with getInstance := getInstanceOfCopy }

/-- The printer `sqlparser.String` on an expression that may be nil: a nil node
prints as `<nil>`. -/
def Deps.sqlString {D : Type} (d : Deps D) : Option SQLExpr → Str
  | none => "<nil>".toList
  | some e => d.StringExpr e

/-! ## `kom/sql.go` and `kom/sql_builder.go` -/

/-- The method `Kubectl.GVK`. -/
def GVK {D : Type} (d : Deps D) (k : Kubectl D) (group version kind : Str) : Kubectl D :=
  let gvk : GroupVersionKind := { Group := group, Version := version, Kind := kind }
  let tx := d.getInstance k
  let stmt := { tx.Statement with useCustomGVK := true }
  { tx with Statement := d.ParseGVKs stmt [gvk] }

/-- The method `Kubectl.Limit`. -/
def Limit {D : Type} (d : Deps D) (k : Kubectl D) (limit : Int) : Kubectl D :=
  let tx := d.getInstance k
  { tx with Statement := { tx.Statement with Filter := { tx.Statement.Filter with Limit := limit } } }

/-- The method `Kubectl.Offset`. -/
def Offset {D : Type} (d : Deps D) (k : Kubectl D) (offset : Int) : Kubectl D :=
  let tx := d.getInstance k
  { tx with Statement := { tx.Statement with Filter := { tx.Statement.Filter with Offset := offset } } }

/-- The function `parseConditionKeyValue`. -/
def parseConditionKeyValue (condition : Str) : Str × Str :=
  match SplitN2 condition "=".toList with
  | [a, b] => (TrimSpace a, TrimSpace b)
  | _ => ([], [])

/-- The map literal of `isFieldSelectorKey`. -/
def fieldKeys : List (Str × Bool) :=
  [("metadata.name".toList, true), ("metadata.namespace".toList, true),
   ("status.phase".toList, true), ("spec.nodeName".toList, true)]

/-- The function `isFieldSelectorKey`: the map's entry, `false` for a missing key. -/
def isFieldSelectorKey (key : Str) : Bool := (fieldKeys.lookup key).getD false

/-- The text `fmt.Sprintf("%s=%s", key, value)`. -/
def entry (key value : Str) : Str := key ++ "=".toList ++ value

/-- One iteration of the loop of `Where` over `parts`, with `values[i]` at its
side: the state is `(labelConditions, fieldConditions)`; `sprint` is
`fmt.Sprintf("%v", ·)`. -/
def whereStep {V : Type} (sprint : V → Str) (acc : List Str × List Str) (pv : Str × V) :
    List Str × List Str :=
  let part := TrimSpace pv.1
  let conditionWithValue := Replace1 "?".toList (sprint pv.2) part
  let kv := parseConditionKeyValue conditionWithValue
  if isFieldSelectorKey kv.1 then (acc.1, acc.2 ++ [entry kv.1 kv.2])
  else (acc.1 ++ [entry kv.1 kv.2], acc.2)

/-- The method `Kubectl.Where`: the returned `tx` and the lines printed on
standard output. The loop runs only when `parts` and `values` have the same
length, so `values[i]` is the element zipped with `parts[i]`. -/
def Where {D V : Type} (d : Deps D) (sprint : V → Str) (k : Kubectl D) (condition : Str)
    (values : List V) : Kubectl D × List Str :=
  let tx := d.getInstance k
  let parts := Split condition "AND".toList
  if parts.length ≠ values.length then
    (tx, ["Error: condition and values count mismatch".toList])
  else
    let acc := (parts.zip values).foldl (whereStep sprint) ([], [])
    let tx := if acc.1.length > 0 then d.WithLabelSelector tx (Join acc.1 ",".toList) else tx
    let tx := if acc.2.length > 0 then d.WithFieldSelector tx (Join acc.2 ",".toList) else tx
    (tx, [])

/-- The message `fmt.Errorf("resource %s not found both in api-resource and crd", from)`. -/
def notFoundMsg (src : Str) : Str :=
  "resource ".toList ++ src ++ " not found both in api-resource and crd".toList

/-- The resolution of the table name in `Sql`: the built-in API resources
first, the CRD list when they have no match. -/
def findGVK {D : Type} (d : Deps D) (src : Str) : Option GroupVersionKind :=
  match d.FindGVKByTableNameInApiResources src with
  | some g => some g
  | none => d.FindGVKByTableNameInCRDList src

/-- The method `Kubectl.Sql` (logging through `klog` left out; `src` is the
local `from` of the code). The calls on `tx` whose result is dropped update
`tx` (`Deps.inChain`). -/
def Sql {D V : Type} (d : Deps D) (k : Kubectl D) (sql : Str) (_values : List V) :
    Outcome (Kubectl D) :=
  let tx := d.getInstance k
  let tx := d.AllNamespace tx
  match d.Parse sql with
  | .error err => .returned { tx with Error := some err }
  | .ok stmt =>
    match stmt with
    | .other _ => .fatal "Not a SELECT statement".toList
    | .select selectStmt =>
      let src := d.StringFrom selectStmt.From
      match findGVK d src with
      | none => .returned { tx with Error := some (notFoundMsg src) }
      | some gvk =>
        let tx := GVK d.inChain tx gvk.Group gvk.Version gvk.Kind
        let tx := match selectStmt.Limit with
          | some limit =>
            let rowCount := d.sqlString limit.Rowcount
            let offset := d.sqlString limit.Offset
            Offset d.inChain (Limit d.inChain tx (d.ToInt rowCount)) (d.ToInt offset)
          | none => tx
        match selectStmt.Where with
        | none => .nilDeref
        | some w =>
          let conditions := d.parseWhereExpr [] 0 "AND".toList w.Expr
          let conditions := conditions.map fun cond =>
            { cond with ValueType := (d.detectType cond.Value).1, Value := (d.detectType cond.Value).2 }
          .returned { tx with Statement := { tx.Statement with
            Filter := { tx.Statement.Filter with Conditions := conditions } } }

/-! ## The terminal verbs of `kom/sql.go` -/

/-- The operations of the callback registry: `Callback().Get()`, `.List()`,
`.Create()`, `.Update()`, `.Delete()`, `.Patch()`, `.Exec()` and `.Logs()`. -/
inductive Verb where
  | Get
  | List
  | Create
  | Update
  | Delete
  | Patch
  | Exec
  | Logs
deriving DecidableEq

/-- The callback registry, which is not in the source tree: `Execute verb tx` is
what `tx.Callback().<verb>().Execute(tx)` does, the error it returns (`none` is
`nil`) and the working copy as the callback leaves it. -/
structure Callbacks (D : Type) where
  Execute : Verb → Kubectl D → Option Str × Kubectl D

/-- What a terminal verb leaves behind: the `tx` it returns and the executions
of the registry it made, in order, each with the working copy handed over. -/
structure VerbResult (D : Type) where
  tx : Kubectl D
  executed : List (Verb × Kubectl D)

/-- The last two lines of every terminal verb:
`tx.Error = tx.Callback().<verb>().Execute(tx); return tx`. -/
def runCallback {D : Type} (cb : Callbacks D) (verb : Verb) (tx : Kubectl D) : VerbResult D :=
  let r := cb.Execute verb tx
  { tx := { r.2 with Error := r.1 }, executed := [(verb, tx)] }

/-- The method `Kubectl.GetLogs`; `opt` is a pointer, `none` when it is nil, and
the assignment to `PodLogOptions.Container` dereferences it. -/
def Kubectl.GetLogs {D : Type} (d : Deps D) (cb : Callbacks D) (k : Kubectl D)
    (requestPtr : Option D) (opt : Option PodLogOptions) : Outcome (VerbResult D) :=
  let tx := d.getInstance k
  let tx := { tx with Statement := { tx.Statement with PodLogOptions := opt } }
  match tx.Statement.PodLogOptions with
  | none => .nilDeref
  | some o =>
    let tx := { tx with Statement := { tx.Statement with
      PodLogOptions := some { o with Container := tx.Statement.ContainerName } } }
    let tx := { tx with Statement := { tx.Statement with Dest := requestPtr } }
    .returned (runCallback cb .Logs tx)

/-- The method `Kubectl.Get`. -/
def Kubectl.Get {D : Type} (d : Deps D) (cb : Callbacks D) (k : Kubectl D)
    (dest : Option D) : VerbResult D :=
  let tx := d.getInstance k
  let tx := { tx with Statement := { tx.Statement with Dest := dest } }
  runCallback cb .Get tx

/-- The method `Kubectl.List`. -/
def Kubectl.List {D : Type} (d : Deps D) (cb : Callbacks D) (k : Kubectl D)
    (dest : Option D) (opt : List ListOptions) : VerbResult D :=
  let tx := d.getInstance k
  let tx := { tx with Statement := { tx.Statement with ListOptions := opt } }
  let tx := { tx with Statement := { tx.Statement with Dest := dest } }
  runCallback cb .List tx

/-- The method `Kubectl.Create`. -/
def Kubectl.Create {D : Type} (d : Deps D) (cb : Callbacks D) (k : Kubectl D)
    (dest : Option D) : VerbResult D :=
  let tx := d.getInstance k
  let tx := { tx with Statement := { tx.Statement with Dest := dest } }
  runCallback cb .Create tx

/-- The method `Kubectl.Update`. -/
def Kubectl.Update {D : Type} (d : Deps D) (cb : Callbacks D) (k : Kubectl D)
    (dest : Option D) : VerbResult D :=
  let tx := d.getInstance k
  let tx := { tx with Statement := { tx.Statement with Dest := dest } }
  runCallback cb .Update tx

/-- The method `Kubectl.Delete`. -/
def Kubectl.Delete {D : Type} (d : Deps D) (cb : Callbacks D) (k : Kubectl D) : VerbResult D :=
  let tx := d.getInstance k
  runCallback cb .Delete tx

/-- The method `Kubectl.Patch`. -/
def Kubectl.Patch {D : Type} (d : Deps D) (cb : Callbacks D) (k : Kubectl D)
    (dest : Option D) (pt : Str) (data : Str) : VerbResult D :=
  let tx := d.getInstance k
  let tx := { tx with Statement := { tx.Statement with Dest := dest } }
  let tx := { tx with Statement := { tx.Statement with PatchData := data } }
  let tx := { tx with Statement := { tx.Statement with PatchType := pt } }
  runCallback cb .Patch tx

/-- The method `Kubectl.ExecuteCommand`. -/
def Kubectl.ExecuteCommand {D : Type} (d : Deps D) (cb : Callbacks D) (k : Kubectl D)
    (dest : Option D) : VerbResult D :=
  let tx := d.getInstance k
  let tx := { tx with Statement := { tx.Statement with Dest := dest } }
  runCallback cb .Exec tx

/-- A verb ran the registry as the protocol asks: one execution, of `verb`, on
the working copy `txc`; the `tx` returned is the working copy as the callback
left it, with the error the callback returned in its `Error`. -/
def RanOnce {D : Type} (cb : Callbacks D) (verb : Verb) (txc : Kubectl D)
    (r : VerbResult D) : Prop :=
  r.executed = [(verb, txc)] ∧ r.tx.Error = (cb.Execute verb txc).1
    ∧ r.tx = { (cb.Execute verb txc).2 with Error := (cb.Execute verb txc).1 }

/-! ## `callbacks/create.go` and `callbacks/delete.go` -/

/-- An `unstructured.Unstructured`: the namespace of its metadata (empty when
the field is absent) and the rest of its attribute map. -/
structure Unstructured where
  Namespace : Str
  Content : Str
deriving DecidableEq

/-- The method `Unstructured.SetNamespace`. -/
def Unstructured.SetNamespace (u : Unstructured) (ns : Str) : Unstructured :=
  { u with Namespace := ns }

/-- A request to the dynamic client: `Resource(gvr).Namespace(ns).Create`,
`Resource(gvr).Create`, `Resource(gvr).Namespace(ns).Delete` and
`Resource(gvr).Delete`, with the context and the object or the name. -/
inductive BackendCall where
  | createNamespaced (gvr : GroupVersionResource) (ns : Str) (ctx : Nat) (obj : Unstructured)
  | createCluster (gvr : GroupVersionResource) (ctx : Nat) (obj : Unstructured)
  | deleteNamespaced (gvr : GroupVersionResource) (ns : Str) (ctx : Nat) (name : Str)
  | deleteCluster (gvr : GroupVersionResource) (ctx : Nat) (name : Str)
deriving DecidableEq

/-- What `ToUnstructured` returns for a destination it converts: the attribute
map, and whether that map is the destination's own (`shared`: the destination
is itself an `Unstructured` and hands out its map, so that a write into the
map is a write into the destination). -/
structure Converted where
  data : Unstructured
  shared : Bool
deriving DecidableEq

/-- What the callbacks reach through the statement: the converter
`runtime.DefaultUnstructuredConverter.ToUnstructured` on a destination that is
not nil (its error, or the converted map), the dynamic client (its answer to a
request: the object returned, or the error) and `utils.RemoveManagedFields`. -/
structure Backend (D : Type) where
  ToUnstructured : D → Except Str Converted
  DynamicClient : BackendCall → Except Str Unstructured
  RemoveManagedFields : Unstructured → Unstructured

/-- What running a callback leaves behind: the error it returns (`none` is
`nil`), the requests made to the dynamic client, in order, and the statement
as it is afterwards. -/
structure CallbackResult (D : Type) where
  err : Option Str
  calls : List BackendCall
  stmt : Statement D
deriving DecidableEq

/-- What running `Create` leaves behind: the fields of a `CallbackResult`, and
the namespace written into the destination object's own map, if any. -/
structure CreateResult (D : Type) where
  err : Option Str
  calls : List BackendCall
  stmt : Statement D
  destNamespace : Option Str
deriving DecidableEq

/-- The request `Create` issues for the converted object: in the statement's
namespace when the resource is namespaced, in `default`, stamped into the
object, when that namespace is empty, and cluster-scoped otherwise. -/
def createCall {D : Type} (stmt : Statement D) (unstructuredObj : Unstructured) : BackendCall :=
  if stmt.Namespaced then
    if stmt.Namespace = [] then
      BackendCall.createNamespaced stmt.GVR "default".toList stmt.Context
        (unstructuredObj.SetNamespace "default".toList)
    else BackendCall.createNamespaced stmt.GVR stmt.Namespace stmt.Context unstructuredObj
  else BackendCall.createCluster stmt.GVR stmt.Context unstructuredObj

/-- The namespace `Create` writes into the destination object: `SetNamespace`
runs only for a namespaced statement without namespace, and it reaches the
destination only when the converted map is the destination's own. -/
def createDestWrite {D : Type} (stmt : Statement D) (conv : Converted) : Option Str :=
  if stmt.Namespaced then
    if stmt.Namespace = [] then
      if conv.shared then some "default".toList else none
    else none
  else none

/-- The callback `Create`. A nil destination makes `ToUnstructured` fault: it
asks the kind of `reflect.TypeOf(nil)`, which is nil. The statement is only
read: `ns` is a local copy of `stmt.Namespace`, and the object returned by the
backend is handed to `RemoveManagedFields` and dropped. -/
def Create {D : Type} (b : Backend D) (kom : Kubectl D) : Outcome (CreateResult D) :=
  let stmt := kom.Statement
  match stmt.Dest with
  | none => .nilDeref
  | some dest =>
    match b.ToUnstructured dest with
    | .error err =>
      .returned { err := some err, calls := [], stmt := stmt, destNamespace := none }
    | .ok unstructuredData =>
      let call := createCall stmt unstructuredData.data
      let written := createDestWrite stmt unstructuredData
      match b.DynamicClient call with
      | .error err =>
        .returned { err := some err, calls := [call], stmt := stmt, destNamespace := written }
      | .ok res =>
        let _res := b.RemoveManagedFields res
        .returned { err := none, calls := [call], stmt := stmt, destNamespace := written }

/-- The message of the error of `Delete` for a missing name. -/
def deleteNameMsg : Str := "删除对象必须指定名称".toList

/-- The callback `Delete`. -/
def Delete {D : Type} (b : Backend D) (kom : Kubectl D) : CallbackResult D :=
  let stmt := kom.Statement
  let gvr := stmt.GVR
  let namespaced := stmt.Namespaced
  let ns := stmt.Namespace
  let name := stmt.Name
  let ctx := stmt.Context
  if name = [] then { err := some deleteNameMsg, calls := [], stmt := stmt }
  else
    let call :=
      if namespaced then BackendCall.deleteNamespaced gvr ns ctx name
      else BackendCall.deleteCluster gvr ctx name
    match b.DynamicClient call with
    | .error err => { err := some err, calls := [call], stmt := stmt }
    | .ok _ => { err := none, calls := [call], stmt := stmt }

/-- Whether a request is one of the namespaced ones. -/
def BackendCall.isNamespaced : BackendCall → Bool
  | .createNamespaced .. => true
  | .deleteNamespaced .. => true
  | _ => false

/-- Whether a request is a create. -/
def BackendCall.isCreate : BackendCall → Bool
  | .createNamespaced .. => true
  | .createCluster .. => true
  | _ => false

/-- The Go error of an answer of the dynamic client: `nil` on success. -/
def errOf {α : Type} : Except Str α → Option Str
  | .error e => some e
  | .ok _ => none

/-! ## Vocabulary of the statements about `Where` -/

/-- The clause `k = ?` for the key `k`, followed by the text `r`. -/
def clause (k r : Str) : Str := k ++ " = ?".toList ++ r

/-- The clauses, each a key with the text after its `?`, joined by `AND`. -/
def conditionOf (cs : List (Str × Str)) : Str :=
  Join (cs.map fun c => clause c.1 c.2) "AND".toList

/-- The selector entries for the clauses `(key, text after ?, value)` whose key,
read through `norm`, is (`field = true`) or is not (`field = false`) a
field-selector key: `key=value` with the value rendered and trimmed, in clause
order. -/
def selectorEntries {V : Type} (norm : Str → Str) (sprint : V → Str) (field : Bool)
    (cs : List (Str × Str × V)) : List Str :=
  (cs.filter fun c => isFieldSelectorKey (norm c.1) == field).map
    fun c => entry (norm c.1) (TrimSpace (sprint c.2.2))

/-- A clause of a condition text, with the white space around its key and after
it: the text is `pad ++ key ++ mid ++ " = ?" ++ rest`, and `value` is the value
for its `?`. -/
structure WhereClause (V : Type) where
  pad : Str
  key : Str
  mid : Str
  rest : Str
  value : V

/-- The condition text of a list of clauses: the clauses, each with its white
space, joined by `AND`. -/
def WhereClause.text {V : Type} (cs : List (WhereClause V)) : Str :=
  conditionOf (cs.map fun c => (c.pad ++ c.key ++ c.mid, c.rest))

/-- The entries `key=value`, value rendered and trimmed, of the clauses whose
key is (`field = true`) or is not (`field = false`) in the allow-list of
field-selector keys, in clause order. -/
def WhereClause.entries {V : Type} (sprint : V → Str) (field : Bool)
    (cs : List (WhereClause V)) : List Str :=
  (cs.filter fun c => isFieldSelectorKey c.key == field).map
    fun c => entry c.key (TrimSpace (sprint c.value))

/-- The working copy after the label entries, when there are any, are passed
comma-joined to `WithLabelSelector`, and then the field entries likewise to
`WithFieldSelector`. -/
def passSelectors {D : Type} (d : Deps D) (tx : Kubectl D) (labels fields : List Str) :
    Kubectl D :=
  let tx := if labels = [] then tx else d.WithLabelSelector tx (Join labels ",".toList)
  if fields = [] then tx else d.WithFieldSelector tx (Join fields ",".toList)

/-! ## A sample instance, for concrete evaluations -/

/-- A sample of `utils.ToInt`: the value of a decimal numeral, `0` for other text. -/
def sampleToInt (s : Str) : Int :=
  if s ≠ [] ∧ s.all Char.isDigit then
    Int.ofNat (s.foldl (fun n c => 10 * n + (c.toNat - 48)) 0)
  else 0

/-- A sample of the parser on four texts. -/
def sampleParse (sql : Str) : Except Str SQLStatement :=
  if sql = "select * from pod".toList then
    .ok (.select { From := [.col "pod".toList], Where := none, Limit := none })
  else if sql = "select * from pod limit 5 offset 2".toList then
    .ok (.select { From := [.col "pod".toList], Where := none,
                   Limit := some { Offset := some (.val "2".toList), Rowcount := some (.val "5".toList) } })
  else if sql = "select * from nosuch where a = 1".toList then
    .ok (.select { From := [.col "nosuch".toList],
                   Where := some { Typ := "where".toList,
                                   Expr := .cmp "=".toList (.col "a".toList) (.val "1".toList) },
                   Limit := none })
  else if sql = "delete from pod".toList then .ok (.other "Delete".toList)
  else .error "syntax error".toList

/-- A sample of the parameters: the working copy is the receiver, the selectors
are recorded in the first list options, and `pod` is the one known table. -/
def sampleDeps : Deps Str where
  getInstance := fun k => k
  AllNamespace := fun tx => { tx with Statement := { tx.Statement with AllNamespace := true } }
  ParseGVKs := fun s gvks => match gvks with
    | g :: _ => { s with GVK := g }
    | [] => s
  WithLabelSelector := fun tx sel => { tx with Statement := { tx.Statement with
    ListOptions := [{ LabelSelector := sel,
                      FieldSelector := (tx.Statement.ListOptions.headD ⟨[], []⟩).FieldSelector }] } }
  WithFieldSelector := fun tx sel => { tx with Statement := { tx.Statement with
    ListOptions := [{ LabelSelector := (tx.Statement.ListOptions.headD ⟨[], []⟩).LabelSelector,
                      FieldSelector := sel }] } }
  FindGVKByTableNameInApiResources := fun t =>
    if t = "pod".toList then some ⟨[], "v1".toList, "Pod".toList⟩ else none
  FindGVKByTableNameInCRDList := fun _ => none
  ToInt := sampleToInt
  parseWhereExpr := fun conds depth andOr e => match e with
    | .cmp op (.col f) (.val v) => conds ++ [⟨depth, andOr, f, op, v, []⟩]
    | _ => conds
  detectType := fun s => ("string".toList, s)
  Parse := sampleParse
  StringFrom := fun es => match es with
    | [.col n] => n
    | _ => []
  StringExpr := fun e => match e with
    | .val t => t
    | .col n => n
    | _ => []

/-- A sample statement holder: a namespaced pod statement with no namespace, no
name, the destination `"obj"` and no error. -/
def sampleKubectl : Kubectl Str where
  Statement :=
    { GVK := ⟨[], "v1".toList, "Pod".toList⟩
      GVR := ⟨[], "v1".toList, "pods".toList⟩
      Namespaced := true
      Namespace := []
      Name := []
      ContainerName := []
      Context := 0
      Dest := some "obj".toList
      ListOptions := []
      PatchType := []
      PatchData := []
      PodLogOptions := none
      AllNamespace := false
      Filter := { Conditions := [], Order := [], Limit := 0, Offset := 0 }
      useCustomGVK := false }
  Error := none

/-- A sample registry: every callback fails on a statement without name and
succeeds otherwise, leaving the working copy as it is. -/
def sampleCallbacks : Callbacks Str where
  Execute := fun _ tx =>
    (if tx.Statement.Name = [] then some "name required".toList else none, tx)

/-- A sample of log options: the last hundred lines. -/
def sampleLogOptions : PodLogOptions where
  Container := []
  Follow := false
  Previous := false
  TailLines := some 100

/-- A sample backend: the destination `bad` does not convert, the destination
`unstructured` converts to its own map and any other one to a fresh map, all
without namespace; the dynamic client refuses to create the object `dup` and
answers every other request with success, echoing the object of a create. -/
def sampleBackend : Backend Str where
  ToUnstructured := fun dest =>
    if dest = "bad".toList then .error "not a pointer to an object".toList
    else .ok { data := { Namespace := [], Content := dest },
               shared := decide (dest = "unstructured".toList) }
  DynamicClient := fun call => match call with
    | .createNamespaced _ _ _ obj =>
      if obj.Content = "dup".toList then .error "already exists".toList else .ok obj
    | .createCluster _ _ obj =>
      if obj.Content = "dup".toList then .error "already exists".toList else .ok obj
    | _ => .ok { Namespace := [], Content := [] }
  RemoveManagedFields := fun u => u

/-- The sample statement holder with another destination (`none` is nil). -/
def sampleWithDest (dest : Option Str) : Kubectl Str :=
  { sampleKubectl with Statement := { sampleKubectl.Statement with Dest := dest } }

/-! ## Lemmas on `Split`, `TrimSpace`, `Replace` and the parsing of a clause -/

/-- White space is not the letter `A`. -/
theorem isSpace_ne_A (x : Char) (h : isSpace x = true) : x ≠ 'A' := by
  rintro rfl; revert h; decide

/-- No occurrence of `AND` starts at a character other than `A`. -/
theorem and_isPrefixOf_cons (c : Char) (t : Str) (h : c ≠ 'A') :
    "AND".toList.isPrefixOf (c :: t) = false := by
  simp [List.isPrefixOf, Ne.symm h]

/-- The scanner passes over text without the letter `A`. -/
theorem splitGo_skip_notA (w cur t : Str) (h : ∀ x ∈ w, x ≠ 'A') :
    splitGo "AND".toList 0 cur (w ++ t) = splitGo "AND".toList 0 (w.reverse ++ cur) t := by
  induction w generalizing cur with
  | nil => simp
  | cons c w ih =>
    have hc : c ≠ 'A' := h c (by simp)
    have hw : ∀ x ∈ w, x ≠ 'A' := fun x hx => h x (by simp [hx])
    rw [List.cons_append, splitGo, and_isPrefixOf_cons c _ hc]
    simpa using ih (c :: cur) hw

/-- A text without `AND` has a tail without `AND`. -/
theorem noAND_tail (c : Char) (k : Str) (h : ¬ "AND".toList <:+: c :: k) :
    ¬ "AND".toList <:+: k := fun h' => h (h'.trans (List.suffix_cons c k).isInfix)

/-- No occurrence of `AND` starts inside a key without `AND` that is followed by a space. -/
theorem and_isPrefixOf_key (k t : Str) (c : Char) (h : ¬ "AND".toList <:+: c :: k) :
    "AND".toList.isPrefixOf (c :: (k ++ ' ' :: t)) = false := by
  match k, h with
  | [], _ => simp [List.isPrefixOf]
  | [n], _ => simp [List.isPrefixOf]
  | n :: d :: k, h =>
    by_contra hp
    simp [List.isPrefixOf] at hp
    obtain ⟨rfl, rfl, rfl⟩ := hp
    exact h ⟨[], k, by simp⟩

/-- The scanner passes over a key without `AND` and the space after it. -/
theorem splitGo_skip_key (k cur t : Str) (h : ¬ "AND".toList <:+: k) :
    splitGo "AND".toList 0 cur (k ++ ' ' :: t)
      = splitGo "AND".toList 0 (' ' :: (k.reverse ++ cur)) t := by
  induction k generalizing cur with
  | nil =>
    rw [List.nil_append, splitGo, and_isPrefixOf_cons _ _ (by decide)]
    simp
  | cons c k ih =>
    rw [List.cons_append, splitGo, and_isPrefixOf_key k t c h]
    simpa using ih (c :: cur) (noAND_tail c k h)

/-- The scanner passes over a whole clause. -/
theorem splitGo_clause (k r cur t : Str) (hk : ¬ "AND".toList <:+: k)
    (hr : ∀ x ∈ r, isSpace x = true) :
    splitGo "AND".toList 0 cur (clause k r ++ t)
      = splitGo "AND".toList 0 ((clause k r).reverse ++ cur) t := by
  have h1 : clause k r ++ t = k ++ ' ' :: (('=' :: ' ' :: '?' :: r) ++ t) := by
    simp [clause]
  have h2 : ∀ x ∈ ('=' :: ' ' :: '?' :: r), x ≠ 'A' := by
    intro x hx
    simp only [List.mem_cons] at hx
    rcases hx with rfl | rfl | rfl | hx
    · decide
    · decide
    · decide
    · exact isSpace_ne_A x (hr x hx)
  rw [h1, splitGo_skip_key k cur _ hk, splitGo_skip_notA _ _ t h2]
  simp [clause]

/-- A clause at the end of the text is the last piece. -/
theorem splitGo_clause_end (k r cur : Str) (hk : ¬ "AND".toList <:+: k)
    (hr : ∀ x ∈ r, isSpace x = true) :
    splitGo "AND".toList 0 cur (clause k r) = [cur.reverse ++ clause k r] := by
  have := splitGo_clause k r cur [] hk hr
  rw [List.append_nil] at this
  rw [this, splitGo]
  simp

/-- A clause followed by `AND` is a piece, and the scan goes on after the `AND`. -/
theorem splitGo_clause_sep (k r cur t : Str) (hk : ¬ "AND".toList <:+: k)
    (hr : ∀ x ∈ r, isSpace x = true) :
    splitGo "AND".toList 0 cur (clause k r ++ "AND".toList ++ t)
      = (cur.reverse ++ clause k r) :: splitGo "AND".toList 0 [] t := by
  rw [List.append_assoc, splitGo_clause k r cur _ hk hr]
  simp [splitGo, List.isPrefixOf]

/-- The scanner cuts the joined clauses back into the clauses. -/
theorem splitGo_conditionOf (cs : List (Str × Str)) (hne : cs ≠ [])
    (hk : ∀ c ∈ cs, ¬ "AND".toList <:+: c.1) (hr : ∀ c ∈ cs, ∀ x ∈ c.2, isSpace x = true) :
    splitGo "AND".toList 0 [] (conditionOf cs) = cs.map fun c => clause c.1 c.2 := by
  induction cs with
  | nil => exact absurd rfl hne
  | cons c cs ih =>
    cases cs with
    | nil =>
      simp only [conditionOf, List.map, Join]
      rw [splitGo_clause_end c.1 c.2 [] (hk c (by simp)) (hr c (by simp))]
      simp
    | cons c2 cs =>
      have ih2 := ih (by simp) (fun x hx => hk x (by simp [hx])) (fun x hx => hr x (by simp [hx]))
      simp only [conditionOf, List.map, Join] at ih2 ⊢
      rw [splitGo_clause_sep c.1 c.2 [] _ (hk c (by simp)) (hr c (by simp)), ih2]
      simp

/-- Splitting the joined clauses at `AND` gives back the clauses. -/
theorem Split_conditionOf (cs : List (Str × Str)) (hne : cs ≠ [])
    (hk : ∀ c ∈ cs, ¬ "AND".toList <:+: c.1) (hr : ∀ c ∈ cs, ∀ x ∈ c.2, isSpace x = true) :
    Split (conditionOf cs) "AND".toList = cs.map fun c => clause c.1 c.2 := by
  rw [Split, if_neg (by simp)]
  exact splitGo_conditionOf cs hne hk hr

/-- Dropping a leading run stops at the first character outside it. -/
theorem dropWhile_append_stop (p : Char → Bool) (a t : Str) (c : Char) (hc : p c = false) :
    (a ++ c :: t).dropWhile p = a.dropWhile p ++ c :: t := by
  induction a with
  | nil => simp [List.dropWhile, hc]
  | cons x a ih =>
    by_cases hx : p x = true
    · simp [List.dropWhile, hx, ih]
    · simp [List.dropWhile, hx]

/-- Dropping a leading run passes over a text that lies within it. -/
theorem dropWhile_all (p : Char → Bool) (w t : Str) (hw : ∀ x ∈ w, p x = true) :
    (w ++ t).dropWhile p = t.dropWhile p := by
  induction w with
  | nil => rfl
  | cons x w ih =>
    have hx : p x = true := hw x (by simp)
    simp [List.dropWhile, hx, ih (fun y hy => hw y (by simp [hy]))]

/-- Dropping a leading run twice is dropping it once. -/
theorem dropWhile_idem (p : Char → Bool) (s : Str) :
    (s.dropWhile p).dropWhile p = s.dropWhile p := by
  induction s with
  | nil => rfl
  | cons x s ih =>
    by_cases hx : p x = true
    · simp [List.dropWhile, hx, ih]
    · simp [List.dropWhile, hx]

/-- White space at the end does not change what trimming on the right leaves. -/
theorem trimRight_append_space (s w : Str) (hw : ∀ x ∈ w, isSpace x = true) :
    trimRight (s ++ w) = trimRight s := by
  unfold trimRight
  rw [List.reverse_append, dropWhile_all isSpace w.reverse s.reverse (by simpa using hw)]

/-- Trimming on the right stops at the last character that is not white space. -/
theorem trimRight_stop (s w : Str) (c : Char) (hc : isSpace c = false)
    (hw : ∀ x ∈ w, isSpace x = true) : trimRight (s ++ c :: w) = s ++ [c] := by
  have h : s ++ c :: w = (s ++ [c]) ++ w := by simp
  rw [h, trimRight_append_space _ w hw]
  simp [trimRight, List.dropWhile, hc]

/-- A space at the end does not change the trimmed text. -/
theorem TrimSpace_append_space (k : Str) : TrimSpace (k ++ [' ']) = TrimSpace k := by
  unfold TrimSpace trimLeft
  induction k with
  | nil => simp [List.dropWhile, isSpace, trimRight]
  | cons x k ih =>
    by_cases hx : isSpace x = true
    · simpa [List.dropWhile, hx] using ih
    · simp only [List.cons_append, List.dropWhile, hx]
      exact trimRight_append_space (x :: k) [' '] (by simp [isSpace])

/-- A space at the start does not change the trimmed text. -/
theorem TrimSpace_cons_space (v : Str) : TrimSpace (' ' :: v) = TrimSpace v := by
  simp [TrimSpace, trimLeft, List.dropWhile, isSpace]

/-- The clause with its surrounding white space removed. -/
theorem TrimSpace_clause (k r : Str) (hr : ∀ x ∈ r, isSpace x = true) :
    TrimSpace (clause k r) = trimLeft (k ++ [' ']) ++ ['=', ' ', '?'] := by
  have h1 : clause k r = (k ++ [' ']) ++ '=' :: (' ' :: '?' :: r) := by simp [clause]
  have h2 : trimLeft ((k ++ [' ']) ++ '=' :: (' ' :: '?' :: r))
      = trimLeft (k ++ [' ']) ++ '=' :: (' ' :: '?' :: r) :=
    dropWhile_append_stop isSpace _ _ '=' (by decide)
  have h3 : trimLeft (k ++ [' ']) ++ '=' :: (' ' :: '?' :: r)
      = (trimLeft (k ++ [' ']) ++ ['=', ' ']) ++ '?' :: r := by simp
  rw [TrimSpace, h1, h2, h3, trimRight_stop _ r '?' (by decide) hr]
  simp

/-- The characters left by trimming are characters of the text. -/
theorem mem_trimLeft (s : Str) (x : Char) (h : x ∈ trimLeft s) : x ∈ s :=
  (List.dropWhile_sublist isSpace).subset h

/-- The placeholder replaced is the first `?` of the text. -/
theorem Replace1_question (a v t : Str) (ha : '?' ∉ a) :
    Replace1 "?".toList v (a ++ '?' :: t) = a ++ v ++ t := by
  induction a with
  | nil => simp [Replace1, List.isPrefixOf]
  | cons x a ih =>
    have hx : '?' ≠ x := fun h => ha (h ▸ List.mem_cons_self _ _)
    have ha2 : '?' ∉ a := fun h => ha (by simp [h])
    have := ih ha2
    simp [Replace1, List.isPrefixOf, hx] at this ⊢
    exact this

/-- The cut is made at the first `=` of the text. -/
theorem cut_eq (a t : Str) (ha : '=' ∉ a) :
    cut "=".toList (a ++ '=' :: t) = some (a, t) := by
  induction a with
  | nil => simp [cut, List.isPrefixOf]
  | cons x a ih =>
    have hx : '=' ≠ x := fun h => ha (h ▸ List.mem_cons_self _ _)
    have ha2 : '=' ∉ a := fun h => ha (by simp [h])
    have := ih ha2
    simp [cut, List.isPrefixOf, hx] at this ⊢
    simp [this]

/-- A clause with its value substituted parses into the trimmed key and the trimmed value. -/
theorem parse_clause (k r v : Str) (hq : '?' ∉ k) (he : '=' ∉ k)
    (hr : ∀ x ∈ r, isSpace x = true) :
    parseConditionKeyValue (Replace1 "?".toList v (TrimSpace (clause k r)))
      = (TrimSpace k, TrimSpace v) := by
  have hX : ∀ c, c ∉ k → c ≠ ' ' → c ∉ trimLeft (k ++ [' ']) := by
    intro c hc hs hm
    have := mem_trimLeft _ _ hm
    simp at this
    rcases this with h | h
    · exact hc h
    · exact hs h
  have hq' : '?' ∉ trimLeft (k ++ [' ']) ++ ['=', ' '] := by
    intro hm
    rw [List.mem_append] at hm
    rcases hm with h | h
    · exact hX '?' hq (by decide) h
    · revert h; decide
  have h1 : TrimSpace (clause k r) = (trimLeft (k ++ [' ']) ++ ['=', ' ']) ++ '?' :: [] := by
    rw [TrimSpace_clause k r hr]; simp
  rw [h1, Replace1_question _ v [] hq']
  have h2 : trimLeft (k ++ [' ']) ++ ['=', ' '] ++ v ++ []
      = trimLeft (k ++ [' ']) ++ '=' :: (' ' :: v) := by simp
  rw [h2, parseConditionKeyValue, SplitN2, cut_eq _ _ (hX '=' he (by decide))]
  have h3 : TrimSpace (trimLeft (k ++ [' '])) = TrimSpace (k ++ [' ']) := by
    unfold TrimSpace trimLeft
    rw [dropWhile_idem]
  simp only [h3, TrimSpace_append_space, TrimSpace_cons_space]

/-! ## `Where` -/

/-- One iteration of the loop of `Where` on a clause. -/
theorem whereStep_clause {V : Type} (sprint : V → Str) (acc : List Str × List Str)
    (k r : Str) (v : V) (hq : '?' ∉ k) (he : '=' ∉ k) (hr : ∀ x ∈ r, isSpace x = true) :
    whereStep sprint acc (clause k r, v)
      = if isFieldSelectorKey (TrimSpace k) then
          (acc.1, acc.2 ++ [entry (TrimSpace k) (TrimSpace (sprint v))])
        else (acc.1 ++ [entry (TrimSpace k) (TrimSpace (sprint v))], acc.2) := by
  simp only [whereStep, parse_clause k r (sprint v) hq he hr]

/-- The loop of `Where` on the clauses collects the label and the field entries. -/
theorem foldl_whereStep {V : Type} (sprint : V → Str) (cs : List (Str × Str × V))
    (acc : List Str × List Str)
    (hk : ∀ c ∈ cs, '=' ∉ c.1 ∧ '?' ∉ c.1) (hr : ∀ c ∈ cs, ∀ x ∈ c.2.1, isSpace x = true) :
    ((cs.map fun c => clause c.1 c.2.1).zip (cs.map fun c => c.2.2)).foldl (whereStep sprint) acc
      = (acc.1 ++ selectorEntries TrimSpace sprint false cs,
         acc.2 ++ selectorEntries TrimSpace sprint true cs) := by
  induction cs generalizing acc with
  | nil => simp [selectorEntries]
  | cons c cs ih =>
    have hc := hk c (by simp)
    have ih2 := fun a => ih a (fun x hx => hk x (by simp [hx])) (fun x hx => hr x (by simp [hx]))
    simp only [List.map, List.zip_cons_cons, List.foldl_cons]
    rw [whereStep_clause sprint acc c.1 c.2.1 c.2.2 hc.2 hc.1 (hr c (by simp))]
    by_cases hf : isFieldSelectorKey (TrimSpace c.1) = true
    · rw [if_pos hf, ih2]
      simp [selectorEntries, List.filter, hf]
    · rw [if_neg hf, ih2]
      simp [selectorEntries, List.filter, hf]

/-- For a non-empty list of clauses `t = ?`, each possibly followed by white space and
joined by `AND`, whose key texts `t` contain no `=`, no `?` and no `AND`, and as many
values, `Where` passes to `WithLabelSelector` the comma-joined entries `key=value` of the
clauses whose key, the trimmed `t`, is not a field-selector key, and to `WithFieldSelector`
those of the clauses whose key is one, in clause order, each selector being passed only
when it has an entry; every clause is in exactly one of the two lists. -/
theorem Where_selectors {D V : Type} (d : Deps D) (sprint : V → Str) (k : Kubectl D)
    (cs : List (Str × Str × V)) (hne : cs ≠ [])
    (hk : ∀ c ∈ cs, '=' ∉ c.1 ∧ '?' ∉ c.1 ∧ ¬ "AND".toList <:+: c.1)
    (hr : ∀ c ∈ cs, ∀ x ∈ c.2.1, isSpace x = true) :
    Where d sprint k (conditionOf (cs.map fun c => (c.1, c.2.1))) (cs.map fun c => c.2.2)
        = (passSelectors d (d.getInstance k) (selectorEntries TrimSpace sprint false cs)
            (selectorEntries TrimSpace sprint true cs), [])
      ∧ (selectorEntries TrimSpace sprint false cs).length
          + (selectorEntries TrimSpace sprint true cs).length = cs.length := by
  constructor
  · have hs : Split (conditionOf (cs.map fun c => (c.1, c.2.1))) "AND".toList
        = cs.map fun c => clause c.1 c.2.1 := by
      have h1 : (cs.map fun c => (c.1, c.2.1)) ≠ [] := by
        cases cs with
        | nil => exact absurd rfl hne
        | cons c cs => simp
      have h2 : ∀ c ∈ cs.map (fun c => (c.1, c.2.1)), ¬ "AND".toList <:+: c.1 := by
        intro c hc
        obtain ⟨c0, hc0, rfl⟩ := List.mem_map.1 hc
        exact (hk c0 hc0).2.2
      have h3 : ∀ c ∈ cs.map (fun c => (c.1, c.2.1)), ∀ x ∈ c.2, isSpace x = true := by
        intro c hc
        obtain ⟨c0, hc0, rfl⟩ := List.mem_map.1 hc
        exact hr c0 hc0
      rw [Split_conditionOf _ h1 h2 h3, List.map_map]
      rfl
    unfold Where
    simp only [hs, List.length_map, ne_eq, not_true_eq_false, if_false]
    rw [foldl_whereStep sprint cs ([], []) (fun c hc => ⟨(hk c hc).1, (hk c hc).2.1⟩) hr]
    simp [passSelectors, List.length_pos]
  · clear hne hk hr
    induction cs with
    | nil => rfl
    | cons c cs ih =>
      by_cases hf : isFieldSelectorKey (TrimSpace c.1) = true
      · simp [selectorEntries, List.filter, hf] at ih ⊢
        omega
      · simp [selectorEntries, List.filter, hf] at ih ⊢
        omega

/-- White space before a text brings no occurrence of a pattern that starts with a
character that is not white space. -/
theorem pad_not_infix (c : Char) (p l k : Str) (hc : isSpace c = false)
    (hl : ∀ x ∈ l, isSpace x = true) (hk : ¬ c :: p <:+: k) : ¬ c :: p <:+: l ++ k := by
  induction l with
  | nil => simpa using hk
  | cons x l ih =>
    intro h
    rw [List.cons_append, List.infix_cons_iff] at h
    rcases h with h | h
    · have hx : c = x := (List.cons_prefix_cons.1 h).1
      rw [hx, hl x (List.mem_cons_self _ _)] at hc
      exact Bool.noConfusion hc
    · exact ih (fun y hy => hl y (List.mem_cons_of_mem _ hy)) h

/-- White space around a text without `AND` brings no `AND`. -/
theorem noAND_pad (l k m : Str) (hl : ∀ x ∈ l, isSpace x = true)
    (hm : ∀ x ∈ m, isSpace x = true) (hk : ¬ "AND".toList <:+: k) :
    ¬ "AND".toList <:+: l ++ k ++ m := by
  have h1 : ¬ "AND".toList <:+: l ++ k := pad_not_infix 'A' "ND".toList l k (by decide) hl hk
  intro h
  have h2 : "DNA".toList <:+: m.reverse ++ (l ++ k).reverse := by
    have := List.reverse_infix.2 h
    simpa using this
  refine pad_not_infix 'D' "NA".toList m.reverse (l ++ k).reverse (by decide)
    (fun x hx => hm x (List.mem_reverse.1 hx)) ?_ h2
  intro h3
  have := List.reverse_infix.2 h3
  exact h1 (by simpa using this)

/-- White space after a text does not change the trimmed text. -/
theorem TrimSpace_append_ws (k m : Str) (hm : ∀ x ∈ m, isSpace x = true) :
    TrimSpace (k ++ m) = TrimSpace k := by
  unfold TrimSpace trimLeft
  induction k with
  | nil =>
    have := dropWhile_all isSpace m [] hm
    simp only [List.append_nil] at this
    simp [this, List.dropWhile]
  | cons x k ih =>
    by_cases hx : isSpace x = true
    · simpa [List.dropWhile, hx] using ih
    · simp only [List.cons_append, List.dropWhile, hx]
      exact trimRight_append_space (x :: k) m hm

/-- White space around a text does not change the trimmed text. -/
theorem TrimSpace_pad (l k m : Str) (hl : ∀ x ∈ l, isSpace x = true)
    (hm : ∀ x ∈ m, isSpace x = true) : TrimSpace (l ++ k ++ m) = TrimSpace k := by
  rw [TrimSpace_append_ws _ m hm]
  unfold TrimSpace trimLeft
  rw [dropWhile_all isSpace l k hl]

/-- Every text is its trimmed text with white space before and after it, so that every
clause `t = ?` is a `WhereClause` whose key is the trimmed `t`. -/
theorem TrimSpace_decompose (t : Str) :
    ∃ l m : Str, (∀ x ∈ l, isSpace x = true) ∧ (∀ x ∈ m, isSpace x = true)
      ∧ t = l ++ TrimSpace t ++ m ∧ TrimSpace (TrimSpace t) = TrimSpace t := by
  have hdec : t = t.takeWhile isSpace ++ TrimSpace t
      ++ ((trimLeft t).reverse.takeWhile isSpace).reverse := by
    have h1 : t = t.takeWhile isSpace ++ trimLeft t := (List.takeWhile_append_dropWhile _ _).symm
    have h2 : trimLeft t = TrimSpace t ++ ((trimLeft t).reverse.takeWhile isSpace).reverse := by
      have h3 : (trimLeft t).reverse.reverse
          = ((trimLeft t).reverse.takeWhile isSpace
              ++ (trimLeft t).reverse.dropWhile isSpace).reverse := by
        rw [List.takeWhile_append_dropWhile]
      rw [List.reverse_reverse, List.reverse_append] at h3
      exact h3
    rw [List.append_assoc, ← h2]
    exact h1
  have hl : ∀ x ∈ t.takeWhile isSpace, isSpace x = true := fun x hx =>
    List.mem_takeWhile_imp hx
  have hm : ∀ x ∈ ((trimLeft t).reverse.takeWhile isSpace).reverse, isSpace x = true :=
    fun x hx => List.mem_takeWhile_imp (List.mem_reverse.1 hx)
  refine ⟨_, _, hl, hm, hdec, ?_⟩
  have := TrimSpace_pad _ (TrimSpace t) _ hl hm
  rw [← hdec] at this
  exact this.symm

/-- The entries of clauses with surrounding white space are the entries of their texts. -/
theorem selectorEntries_pad {V : Type} (sprint : V → Str) (field : Bool)
    (cs : List (WhereClause V))
    (hkey : ∀ c ∈ cs, TrimSpace c.key = c.key)
    (hl : ∀ c ∈ cs, ∀ x ∈ c.pad, isSpace x = true)
    (hm : ∀ c ∈ cs, ∀ x ∈ c.mid, isSpace x = true) :
    selectorEntries TrimSpace sprint field
        (cs.map fun c => (c.pad ++ c.key ++ c.mid, c.rest, c.value))
      = WhereClause.entries sprint field cs := by
  induction cs with
  | nil => rfl
  | cons c cs ih =>
    have hc : TrimSpace (c.pad ++ c.key ++ c.mid) = c.key := by
      rw [TrimSpace_pad _ _ _ (hl c (List.mem_cons_self _ _)) (hm c (List.mem_cons_self _ _)),
        hkey c (List.mem_cons_self _ _)]
    have ih2 := ih (fun x hx => hkey x (List.mem_cons_of_mem _ hx))
      (fun x hx => hl x (List.mem_cons_of_mem _ hx))
      (fun x hx => hm x (List.mem_cons_of_mem _ hx))
    unfold selectorEntries WhereClause.entries at ih2 ⊢
    simp only [List.map_cons, List.filter_cons, hc]
    split
    · simp only [List.map_cons, hc, ih2]
    · exact ih2

/-- C1: for every non-empty list of clauses `k = ?` joined by `AND`, with white space allowed
around each key and after each clause, whose keys contain no `=`, no `?` and no `AND` (and,
being the text between the white space, have none at their ends), and every list of as many
values, `Where` passes to `WithLabelSelector` exactly the comma-joined entries `k=v`, `v`
rendered and trimmed, for the keys that are not in the field-selector allow-list, in clause
order, and to `WithFieldSelector` exactly those for the keys that are in it, in clause order
(a selector with no entry is not passed); each clause is in exactly one of the two. -/
theorem Where_clauses {D V : Type} (d : Deps D) (sprint : V → Str) (k : Kubectl D)
    (cs : List (WhereClause V)) (hne : cs ≠ [])
    (hk : ∀ c ∈ cs, '=' ∉ c.key ∧ '?' ∉ c.key ∧ ¬ "AND".toList <:+: c.key)
    (hkey : ∀ c ∈ cs, TrimSpace c.key = c.key)
    (hl : ∀ c ∈ cs, ∀ x ∈ c.pad, isSpace x = true)
    (hm : ∀ c ∈ cs, ∀ x ∈ c.mid, isSpace x = true)
    (hr : ∀ c ∈ cs, ∀ x ∈ c.rest, isSpace x = true) :
    Where d sprint k (WhereClause.text cs) (cs.map fun c => c.value)
        = (passSelectors d (d.getInstance k) (WhereClause.entries sprint false cs)
            (WhereClause.entries sprint true cs), [])
      ∧ (WhereClause.entries sprint false cs).length
          + (WhereClause.entries sprint true cs).length = cs.length := by
  have hpad : ∀ c ∈ cs, ∀ y : Char, isSpace y = false → y ∉ c.key →
      y ∉ c.pad ++ c.key ++ c.mid := by
    intro c hc y hy hyk h
    rcases List.mem_append.1 h with h | h
    · rcases List.mem_append.1 h with h | h
      · rw [hl c hc y h] at hy
        exact Bool.noConfusion hy
      · exact hyk h
    · rw [hm c hc y h] at hy
      exact Bool.noConfusion hy
  have h := Where_selectors d sprint k
    (cs.map fun c => (c.pad ++ c.key ++ c.mid, c.rest, c.value))
    (by
      cases cs with
      | nil => exact absurd rfl hne
      | cons c cs => simp)
    (by
      intro c hc
      obtain ⟨c0, hc0, rfl⟩ := List.mem_map.1 hc
      exact ⟨hpad c0 hc0 '=' (by decide) (hk c0 hc0).1,
        hpad c0 hc0 '?' (by decide) (hk c0 hc0).2.1,
        noAND_pad _ _ _ (hl c0 hc0) (hm c0 hc0) (hk c0 hc0).2.2⟩)
    (by
      intro c hc
      obtain ⟨c0, hc0, rfl⟩ := List.mem_map.1 hc
      exact hr c0 hc0)
  rw [selectorEntries_pad sprint false cs hkey hl hm,
    selectorEntries_pad sprint true cs hkey hl hm] at h
  simp only [List.map_map, List.length_map] at h
  exact h

/-- C1, witness: `Where("a = ? AND metadata.name = ?", "x", "y")`, whose clauses are `a = ?`
followed by a space and `metadata.name = ?` after a space, passes the label selector `a=x`
and the field selector `metadata.name=y`. -/
theorem Where_clauses_witness :
    WhereClause.text
        [⟨[], "a".toList, [], " ".toList, "x".toList⟩,
         ⟨" ".toList, "metadata.name".toList, [], [], "y".toList⟩]
      = "a = ? AND metadata.name = ?".toList
    ∧ Where sampleDeps id sampleKubectl "a = ? AND metadata.name = ?".toList
        ["x".toList, "y".toList]
      = (sampleDeps.WithFieldSelector
          (sampleDeps.WithLabelSelector sampleKubectl "a=x".toList) "metadata.name=y".toList, []) :=
  ⟨by decide,
    (Where_clauses sampleDeps id sampleKubectl
      [⟨[], "a".toList, [], " ".toList, "x".toList⟩,
       ⟨" ".toList, "metadata.name".toList, [], [], "y".toList⟩]
      (by simp) (by decide) (by decide) (by decide) (by decide) (by decide)).1.trans
      (by decide)⟩

/-- On a count mismatch `Where` prints its message and returns the working copy as it is. -/
theorem Where_mismatch {D V : Type} (d : Deps D) (sprint : V → Str) (k : Kubectl D)
    (condition : Str) (values : List V)
    (h : (Split condition "AND".toList).length ≠ values.length) :
    Where d sprint k condition values
      = (d.getInstance k, ["Error: condition and values count mismatch".toList]) := by
  simp only [Where]
  rw [if_pos h]

/-- C2: when the number of values differs from the number of `AND`-separated clauses,
`Where` returns the working copy as `getInstance` gave it: neither selector is passed. -/
theorem Where_mismatch_unchanged {D V : Type} (d : Deps D) (sprint : V → Str) (k : Kubectl D)
    (condition : Str) (values : List V)
    (h : (Split condition "AND".toList).length ≠ values.length) :
    (Where d sprint k condition values).1 = d.getInstance k := by
  rw [Where_mismatch d sprint k condition values h]

/-- C2, witness: `Where("a = ? AND metadata.name = ?", "x")` returns the statement holder
unchanged, without list options. -/
theorem Where_mismatch_unchanged_witness :
    (Split "a = ? AND metadata.name = ?".toList "AND".toList).length ≠ ["x".toList].length
    ∧ (Where sampleDeps id sampleKubectl "a = ? AND metadata.name = ?".toList ["x".toList]).1
        = sampleKubectl
    ∧ sampleKubectl.Statement.ListOptions = [] :=
  ⟨by decide,
   Where_mismatch_unchanged sampleDeps id sampleKubectl "a = ? AND metadata.name = ?".toList
     ["x".toList] (by decide),
   rfl⟩

/-- C3, the code at the failing input: `Where("a = ? AND metadata.name = ?", "x")` has two
clauses and one value, and returns a statement holder whose `Error` is nil; the mismatch is
only printed on standard output. -/
theorem Where_mismatch_error_nil :
    (Split "a = ? AND metadata.name = ?".toList "AND".toList).length ≠ ["x".toList].length
    ∧ (Where sampleDeps id sampleKubectl "a = ? AND metadata.name = ?".toList ["x".toList]).1.Error
        = none
    ∧ (Where sampleDeps id sampleKubectl "a = ? AND metadata.name = ?".toList ["x".toList]).2
        = ["Error: condition and values count mismatch".toList] := by
  decide

/-! ## The callbacks `Delete` and `Create` -/

/-- C4: for a statement with an empty name, whatever its scope, namespace and resource,
the `Delete` callback returns a non-nil error and makes no request to the dynamic client. -/
theorem Delete_empty_name {D : Type} (b : Backend D) (kom : Kubectl D)
    (h : kom.Statement.Name = []) :
    (Delete b kom).err = some deleteNameMsg ∧ (Delete b kom).err ≠ none
      ∧ (Delete b kom).calls = [] := by
  simp [Delete, h]

/-- C4, witness: the sample statement has no name. -/
theorem Delete_empty_name_witness :
    sampleKubectl.Statement.Name = []
    ∧ ((Delete sampleBackend sampleKubectl).err = some deleteNameMsg
      ∧ (Delete sampleBackend sampleKubectl).err ≠ none
      ∧ (Delete sampleBackend sampleKubectl).calls = []) :=
  ⟨rfl, Delete_empty_name sampleBackend sampleKubectl rfl⟩

/-- C5, counterexample: for a namespaced statement without namespace whose destination
converts, `Create` succeeds and the namespace of the statement is still empty, not
`default`. -/
theorem Create_statement_namespace_counterexample :
    sampleKubectl.Statement.Namespaced = true
    ∧ sampleKubectl.Statement.Namespace = []
    ∧ sampleKubectl.Statement.Dest = some "obj".toList
    ∧ sampleBackend.ToUnstructured "obj".toList
        = .ok { data := { Namespace := [], Content := "obj".toList }, shared := false }
    ∧ (∃ r, Create sampleBackend sampleKubectl = .returned r ∧ r.err = none
        ∧ r.stmt.Namespace = [] ∧ r.stmt.Namespace ≠ "default".toList) :=
  ⟨rfl, rfl, rfl, rfl, _, rfl, by decide, by decide, by decide⟩

/-- C5, as amended: for a namespaced statement without namespace whose destination
converts, `Create` makes one namespaced create request, in the namespace `default` and with
an object whose namespace is `default`; the statement itself is left as it was. The
namespace is also written into the destination object exactly when the converted map is
the destination's own. -/
theorem Create_default_namespace {D : Type} (b : Backend D) (kom : Kubectl D) (dest : D)
    (u : Converted)
    (hn : kom.Statement.Namespaced = true) (hns : kom.Statement.Namespace = [])
    (hd : kom.Statement.Dest = some dest) (hu : b.ToUnstructured dest = .ok u) :
    ∃ r, Create b kom = .returned r
      ∧ r.calls
        = [BackendCall.createNamespaced kom.Statement.GVR "default".toList kom.Statement.Context
            { u.data with Namespace := "default".toList }]
      ∧ r.stmt = kom.Statement
      ∧ r.destNamespace = (if u.shared then some "default".toList else none) := by
  unfold Create
  simp only [hd, hu]
  split <;>
    exact ⟨_, rfl, by simp [createCall, hn, hns, Unstructured.SetNamespace], rfl,
      by simp [createDestWrite, hn, hns]⟩

/-- C5, witness: the sample statement is namespaced, without namespace, and its
destination converts. -/
theorem Create_default_namespace_witness :
    sampleKubectl.Statement.Namespaced = true
    ∧ sampleKubectl.Statement.Namespace = []
    ∧ sampleKubectl.Statement.Dest = some "obj".toList
    ∧ sampleBackend.ToUnstructured "obj".toList
        = .ok { data := { Namespace := [], Content := "obj".toList }, shared := false }
    ∧ (∃ r, Create sampleBackend sampleKubectl = .returned r
      ∧ r.calls
        = [BackendCall.createNamespaced sampleKubectl.Statement.GVR "default".toList
            sampleKubectl.Statement.Context
            { Namespace := "default".toList, Content := "obj".toList }]
      ∧ r.stmt = sampleKubectl.Statement
      ∧ r.destNamespace = none) :=
  ⟨rfl, rfl, rfl, rfl,
   Create_default_namespace sampleBackend sampleKubectl "obj".toList
     { data := { Namespace := [], Content := "obj".toList }, shared := false } rfl rfl rfl rfl⟩

/-- C6, as amended: for a statement whose destination is not nil, when the conversion of
the destination fails, `Create` returns that error and makes no request; otherwise it makes
exactly one create request, namespaced exactly when the statement is, and returns the error
of that request, nil exactly when the request succeeds. -/
theorem Create_error {D : Type} (b : Backend D) (kom : Kubectl D) (dest : D)
    (hd : kom.Statement.Dest = some dest) :
    (∀ e, b.ToUnstructured dest = .error e →
        Create b kom = .returned
          { err := some e, calls := [], stmt := kom.Statement, destNamespace := none })
    ∧ (∀ u, b.ToUnstructured dest = .ok u →
        ∃ call r, Create b kom = .returned r ∧ r.calls = [call] ∧ call.isCreate = true
          ∧ call.isNamespaced = kom.Statement.Namespaced
          ∧ r.err = errOf (b.DynamicClient call)
          ∧ (r.err = none ↔ ∃ res, b.DynamicClient call = .ok res)) := by
  constructor
  · intro e he
    simp [Create, hd, he]
  · intro u hu
    have h1 : (createCall kom.Statement u.data).isCreate = true := by
      unfold createCall
      split_ifs <;> rfl
    have h2 : (createCall kom.Statement u.data).isNamespaced = kom.Statement.Namespaced := by
      unfold createCall
      split_ifs with h1 h2 <;> simp [BackendCall.isNamespaced, h1]
    unfold Create
    simp only [hd, hu]
    split
    · next err he =>
      exact ⟨_, _, rfl, rfl, h1, h2, by simp [errOf, he], by simp [he]⟩
    · next res he =>
      exact ⟨_, _, rfl, rfl, h1, h2, by simp [errOf, he], by simp [he]⟩

/-- C6, witness: on the sample backend the destination `bad` fails to convert and no
request is made; the destination `obj` converts and its one namespaced create succeeds; the
destination `dup` converts and the error of its one request is the result. -/
theorem Create_error_witness :
    (sampleWithDest (some "bad".toList)).Statement.Dest = some "bad".toList
    ∧ Create sampleBackend (sampleWithDest (some "bad".toList))
        = .returned { err := some "not a pointer to an object".toList, calls := [],
                      stmt := (sampleWithDest (some "bad".toList)).Statement,
                      destNamespace := none }
    ∧ (∃ call r, Create sampleBackend sampleKubectl = .returned r ∧ r.calls = [call]
        ∧ call.isCreate = true
        ∧ call.isNamespaced = sampleKubectl.Statement.Namespaced
        ∧ r.err = errOf (sampleBackend.DynamicClient call)
        ∧ (r.err = none ↔ ∃ res, sampleBackend.DynamicClient call = .ok res))
    ∧ (∃ r, Create sampleBackend (sampleWithDest (some "dup".toList)) = .returned r
        ∧ r.err = some "already exists".toList ∧ r.calls.length = 1) :=
  ⟨rfl,
   (Create_error sampleBackend (sampleWithDest (some "bad".toList)) "bad".toList rfl).1
     "not a pointer to an object".toList rfl,
   (Create_error sampleBackend sampleKubectl "obj".toList rfl).2
     { data := { Namespace := [], Content := "obj".toList }, shared := false } rfl,
   ⟨_, rfl, by decide, by decide⟩⟩

/-- C6, counterexample: with a nil destination `Create` faults inside the conversion; it
returns neither a conversion error nor the error of a request. -/
theorem Create_nil_destination_counterexample :
    (sampleWithDest none).Statement.Dest = none
    ∧ Create sampleBackend (sampleWithDest none) = .nilDeref
    ∧ ∀ r, Create sampleBackend (sampleWithDest none) ≠ .returned r :=
  ⟨rfl, rfl, fun _ h => Outcome.noConfusion h⟩

/-! ## `Sql` -/

/-- A table name found in neither source does not resolve. -/
theorem findGVK_none {D : Type} (d : Deps D) (src : Str)
    (h1 : d.FindGVKByTableNameInApiResources src = none)
    (h2 : d.FindGVKByTableNameInCRDList src = none) : findGVK d src = none := by
  simp [findGVK, h1, h2]

/-- C7: for a SELECT whose table name is found neither in the API resources nor in the CRD
list, `Sql` returns the working copy with only its `Error` set, to a message that contains
the table name; the statement is the one `AllNamespace` left, and the result does not
depend on `ParseGVKs`, the only way `GVK` acts on the statement. -/
theorem Sql_unknown_table {D V : Type} (d : Deps D) (k : Kubectl D) (sql : Str)
    (values : List V) (sel : Select)
    (hp : d.Parse sql = .ok (.select sel))
    (h1 : d.FindGVKByTableNameInApiResources (d.StringFrom sel.From) = none)
    (h2 : d.FindGVKByTableNameInCRDList (d.StringFrom sel.From) = none) :
    Sql d k sql values
        = .returned { d.AllNamespace (d.getInstance k) with
            Error := some (notFoundMsg (d.StringFrom sel.From)) }
      ∧ d.StringFrom sel.From <:+: notFoundMsg (d.StringFrom sel.From)
      ∧ ∀ pg, Sql { d with ParseGVKs := pg } k sql values = Sql d k sql values := by
  have key : ∀ d' : Deps D, d'.Parse sql = .ok (.select sel) →
      findGVK d' (d'.StringFrom sel.From) = none →
      Sql d' k sql values = .returned { d'.AllNamespace (d'.getInstance k) with
            Error := some (notFoundMsg (d'.StringFrom sel.From)) } := by
    intro d' hp' hf'
    unfold Sql
    simp only [hp', hf']
  refine ⟨key d hp (findGVK_none d _ h1 h2), ⟨"resource ".toList, _, rfl⟩, ?_⟩
  intro pg
  rw [key d hp (findGVK_none d _ h1 h2),
    key { d with ParseGVKs := pg } hp (findGVK_none _ _ h1 h2)]

/-- C7, witness: the table `nosuch` is not known to the sample resolver. -/
theorem Sql_unknown_table_witness :
    sampleDeps.Parse "select * from nosuch where a = 1".toList
        = .ok (.select { From := [.col "nosuch".toList],
                         Where := some { Typ := "where".toList,
                                         Expr := .cmp "=".toList (.col "a".toList) (.val "1".toList) },
                         Limit := none })
    ∧ sampleDeps.FindGVKByTableNameInApiResources "nosuch".toList = none
    ∧ sampleDeps.FindGVKByTableNameInCRDList "nosuch".toList = none
    ∧ Sql sampleDeps sampleKubectl "select * from nosuch where a = 1".toList ([] : List Str)
        = .returned { sampleDeps.AllNamespace sampleKubectl with
            Error := some "resource nosuch not found both in api-resource and crd".toList } :=
  ⟨rfl, rfl, rfl,
   (Sql_unknown_table sampleDeps sampleKubectl "select * from nosuch where a = 1".toList
      ([] : List Str) _ rfl rfl rfl).1⟩

/-- On a parsed statement that is not a SELECT, `Sql` ends in `log.Fatalf`. -/
theorem Sql_other_statement {D V : Type} (d : Deps D) (k : Kubectl D) (sql : Str)
    (values : List V) (kind : Str) (hp : d.Parse sql = .ok (.other kind)) :
    Sql d k sql values = .fatal "Not a SELECT statement".toList := by
  unfold Sql
  simp only [hp]

/-- C8, the code at the failing input: `delete from pod` parses to a statement that is not
a SELECT, and `Sql` ends in `log.Fatalf`: it returns no statement holder. -/
theorem Sql_not_select_fatal :
    sampleDeps.Parse "delete from pod".toList = .ok (.other "Delete".toList)
    ∧ Sql sampleDeps sampleKubectl "delete from pod".toList ([] : List Str)
        = .fatal "Not a SELECT statement".toList
    ∧ ∀ tx, Sql sampleDeps sampleKubectl "delete from pod".toList ([] : List Str)
        ≠ .returned tx :=
  ⟨rfl, rfl, fun tx h => by
    rw [Sql_other_statement sampleDeps sampleKubectl "delete from pod".toList ([] : List Str)
      "Delete".toList rfl] at h
    exact Outcome.noConfusion h⟩

/-- On a SELECT with a resolvable table and no WHERE clause, `Sql` dereferences the nil
WHERE node. -/
theorem Sql_where_absent {D V : Type} (d : Deps D) (k : Kubectl D) (sql : Str)
    (values : List V) (sel : Select) (gvk : GroupVersionKind)
    (hp : d.Parse sql = .ok (.select sel))
    (hf : findGVK d (d.StringFrom sel.From) = some gvk) (hw : sel.Where = none) :
    Sql d k sql values = .nilDeref := by
  unfold Sql
  simp only [hp, hf, hw]

/-- C9, the code at the failing input: `select * from pod` parses to a SELECT without
WHERE node, the table resolves, and `Sql` faults on the nil WHERE node. -/
theorem Sql_no_where_nil_deref :
    sampleDeps.Parse "select * from pod".toList
        = .ok (.select { From := [.col "pod".toList], Where := none, Limit := none })
    ∧ findGVK sampleDeps "pod".toList = some ⟨[], "v1".toList, "Pod".toList⟩
    ∧ Sql sampleDeps sampleKubectl "select * from pod".toList ([] : List Str) = .nilDeref :=
  ⟨rfl, rfl, rfl⟩

/-- C10, the code at the failing input: `select * from pod limit 5 offset 2` has a
resolvable table and a LIMIT clause, and `Sql` faults on the nil WHERE node instead of
returning a statement holder with limit 5 and offset 2. -/
theorem Sql_limit_no_where_nil_deref :
    sampleDeps.Parse "select * from pod limit 5 offset 2".toList
        = .ok (.select { From := [.col "pod".toList], Where := none,
                         Limit := some { Offset := some (.val "2".toList),
                                         Rowcount := some (.val "5".toList) } })
    ∧ findGVK sampleDeps "pod".toList = some ⟨[], "v1".toList, "Pod".toList⟩
    ∧ Sql sampleDeps sampleKubectl "select * from pod limit 5 offset 2".toList ([] : List Str)
        = .nilDeref :=
  ⟨rfl, rfl, rfl⟩

/-- On a SELECT with a resolvable table, a WHERE clause and a LIMIT clause, `Sql` returns
with the limit and the offset converted from the texts of the two expressions of the clause
(`<nil>` for an absent one). -/
theorem Sql_limit_with_where {D V : Type} (d : Deps D) (k : Kubectl D) (sql : Str)
    (values : List V) (sel : Select) (gvk : GroupVersionKind) (w : WhereNode) (lim : LimitNode)
    (hp : d.Parse sql = .ok (.select sel))
    (hf : findGVK d (d.StringFrom sel.From) = some gvk) (hw : sel.Where = some w)
    (hl : sel.Limit = some lim) :
    ∃ tx, Sql d k sql values = .returned tx
      ∧ tx.Statement.Filter.Limit = d.ToInt (d.sqlString lim.Rowcount)
      ∧ tx.Statement.Filter.Offset = d.ToInt (d.sqlString lim.Offset) := by
  unfold Sql
  simp only [hp, hf, hw, hl]
  exact ⟨_, rfl, rfl, rfl⟩

/-- On a SELECT with a resolvable table, a WHERE clause and no LIMIT clause, `Sql` returns
with the limit and the offset the working copy has after `GVK`. -/
theorem Sql_no_limit_with_where {D V : Type} (d : Deps D) (k : Kubectl D) (sql : Str)
    (values : List V) (sel : Select) (gvk : GroupVersionKind) (w : WhereNode)
    (hp : d.Parse sql = .ok (.select sel))
    (hf : findGVK d (d.StringFrom sel.From) = some gvk) (hw : sel.Where = some w)
    (hl : sel.Limit = none) :
    ∃ tx, Sql d k sql values = .returned tx
      ∧ tx.Statement.Filter.Limit
          = (GVK d.inChain (d.AllNamespace (d.getInstance k))
              gvk.Group gvk.Version gvk.Kind).Statement.Filter.Limit
      ∧ tx.Statement.Filter.Offset
          = (GVK d.inChain (d.AllNamespace (d.getInstance k))
              gvk.Group gvk.Version gvk.Kind).Statement.Filter.Offset := by
  unfold Sql
  simp only [hp, hf, hw, hl]
  exact ⟨_, rfl, rfl, rfl⟩

/-! ## `isFieldSelectorKey` and `parseConditionKeyValue` -/

/-- C11: `isFieldSelectorKey key` is true exactly when `key` is one of `metadata.name`,
`metadata.namespace`, `status.phase` and `spec.nodeName`; the empty key, a key in another
case and a key with white space around it are not field-selector keys. -/
theorem isFieldSelectorKey_iff (key : Str) :
    (isFieldSelectorKey key = true ↔
      key = "metadata.name".toList ∨ key = "metadata.namespace".toList
        ∨ key = "status.phase".toList ∨ key = "spec.nodeName".toList)
    ∧ isFieldSelectorKey [] = false
    ∧ isFieldSelectorKey "Metadata.name".toList = false
    ∧ isFieldSelectorKey " metadata.name".toList = false
    ∧ isFieldSelectorKey "metadata.name ".toList = false := by
  refine ⟨?_, by decide, by decide, by decide, by decide⟩
  unfold isFieldSelectorKey fieldKeys
  simp only [List.lookup]
  by_cases h1 : key = "metadata.name".toList
  · subst h1; decide
  by_cases h2 : key = "metadata.namespace".toList
  · subst h2; decide
  by_cases h3 : key = "status.phase".toList
  · subst h3; decide
  by_cases h4 : key = "spec.nodeName".toList
  · subst h4; decide
  have e1 : (key == "metadata.name".toList) = false := by simpa using h1
  have e2 : (key == "metadata.namespace".toList) = false := by simpa using h2
  have e3 : (key == "status.phase".toList) = false := by simpa using h3
  have e4 : (key == "spec.nodeName".toList) = false := by simpa using h4
  rw [e1, e2, e3, e4]
  constructor
  · intro h; exact absurd h (by decide)
  · rintro (h | h | h | h)
    · exact absurd h h1
    · exact absurd h h2
    · exact absurd h h3
    · exact absurd h h4

/-- A text without `=` is not cut. -/
theorem cut_none (s : Str) (h : '=' ∉ s) : cut "=".toList s = none := by
  induction s with
  | nil => rfl
  | cons x s ih =>
    have hx : '=' ≠ x := fun e => h (e ▸ List.mem_cons_self _ _)
    have hs : '=' ∉ s := fun e => h (List.mem_cons_of_mem _ e)
    have := ih hs
    simp [cut, List.isPrefixOf, hx] at this ⊢
    simp [this]

/-- The condition is split at its first `=`, and both sides are trimmed. -/
theorem parseConditionKeyValue_eq (a b : Str) (h : '=' ∉ a) :
    parseConditionKeyValue (a ++ '=' :: b) = (TrimSpace a, TrimSpace b) := by
  rw [parseConditionKeyValue, SplitN2, cut_eq a b h]

/-- A condition without `=` parses into the empty key and the empty value. -/
theorem parseConditionKeyValue_none (s : Str) (h : '=' ∉ s) :
    parseConditionKeyValue s = ([], []) := by
  rw [parseConditionKeyValue, SplitN2, cut_none s h]

/-- The characters of the trimmed text are characters of the text. -/
theorem mem_TrimSpace (s : Str) (x : Char) (h : x ∈ TrimSpace s) : x ∈ s := by
  unfold TrimSpace trimRight at h
  rw [List.mem_reverse] at h
  have h2 := (List.dropWhile_sublist isSpace).subset h
  rw [List.mem_reverse] at h2
  exact mem_trimLeft s x h2

/-- The characters after a replacement come from the text or from the replacement. -/
theorem mem_Replace1 (old new s : Str) (x : Char) (h : x ∈ Replace1 old new s) :
    x ∈ s ∨ x ∈ new := by
  induction s with
  | nil =>
    unfold Replace1 at h
    split at h
    · exact Or.inr h
    · exact Or.inl h
  | cons c s ih =>
    unfold Replace1 at h
    split at h
    · rcases List.mem_append.1 h with h | h
      · exact Or.inr h
      · exact Or.inl ((List.drop_sublist _ _).subset h)
    · rcases List.mem_cons.1 h with h | h
      · exact Or.inl (h ▸ List.mem_cons_self _ _)
      · rcases ih h with h | h
        · exact Or.inl (List.mem_cons_of_mem _ h)
        · exact Or.inr h

/-- C13, as amended: `parseConditionKeyValue` splits at the first `=` only: a text `a=b`
whose `a` has no `=` parses into the trimmed `a` and the trimmed `b`, whatever `b` holds,
and every text with a `=` is of that form; a text without `=` parses into the empty key and
the empty value, so a clause of `Where` that has no `=` once its value is substituted (in
particular when neither the clause nor the value has one) adds the label entry `=`. -/
theorem parseConditionKeyValue_first {V : Type} (sprint : V → Str) :
    (∀ a b : Str, '=' ∉ a →
        parseConditionKeyValue (a ++ '=' :: b) = (TrimSpace a, TrimSpace b))
    ∧ (∀ s : Str, '=' ∈ s → ∃ a b, s = a ++ '=' :: b ∧ '=' ∉ a
        ∧ parseConditionKeyValue s = (TrimSpace a, TrimSpace b))
    ∧ (∀ s : Str, '=' ∉ s → parseConditionKeyValue s = ([], []))
    ∧ (∀ (acc : List Str × List Str) (part : Str) (v : V),
        '=' ∉ Replace1 "?".toList (sprint v) (TrimSpace part) →
        whereStep sprint acc (part, v) = (acc.1 ++ ["=".toList], acc.2))
    ∧ (∀ (acc : List Str × List Str) (part : Str) (v : V),
        '=' ∉ part → '=' ∉ sprint v →
        whereStep sprint acc (part, v) = (acc.1 ++ ["=".toList], acc.2)) := by
  have step : ∀ (acc : List Str × List Str) (part : Str) (v : V),
      '=' ∉ Replace1 "?".toList (sprint v) (TrimSpace part) →
      whereStep sprint acc (part, v) = (acc.1 ++ ["=".toList], acc.2) := by
    intro acc part v h
    simp only [whereStep, parseConditionKeyValue_none _ h]
    rfl
  refine ⟨parseConditionKeyValue_eq, ?_, parseConditionKeyValue_none, step, ?_⟩
  · intro s hs
    obtain ⟨a, b, rfl, ha⟩ := List.eq_append_cons_of_mem hs
    exact ⟨a, b, rfl, ha, parseConditionKeyValue_eq a b ha⟩
  · intro acc part v hp hv
    apply step
    intro h
    rcases mem_Replace1 _ _ _ _ h with h | h
    · exact hp (mem_TrimSpace part _ h)
    · exact hv h

/-- C13, counterexample: the clause `metadata.name ?` has no `=`, and with the value `=y`
`Where` does not add the label entry `=`: the `=` of the value is split on, and the field
selector `metadata.name=y` is passed. -/
theorem Where_value_eq_counterexample :
    '=' ∉ "metadata.name ?".toList
    ∧ whereStep id ([], []) ("metadata.name ?".toList, "=y".toList)
        = ([], ["metadata.name=y".toList])
    ∧ whereStep id ([], []) ("metadata.name ?".toList, "=y".toList) ≠ (["=".toList], [])
    ∧ Where sampleDeps id sampleKubectl "metadata.name ?".toList ["=y".toList]
        = (sampleDeps.WithFieldSelector sampleKubectl "metadata.name=y".toList, []) := by
  decide

/-- C13, witness: `a = b = c` parses into `a` and `b = c`, `abc` into two empty texts, and
`Where("abc", "x")` passes the label selector `=`. -/
theorem parseConditionKeyValue_first_witness :
    parseConditionKeyValue "a = b = c".toList = ("a".toList, "b = c".toList)
    ∧ parseConditionKeyValue "abc".toList = ([], [])
    ∧ whereStep id ([], []) ("abc".toList, "x".toList) = (["=".toList], [])
    ∧ Where sampleDeps id sampleKubectl "abc".toList ["x".toList]
        = (sampleDeps.WithLabelSelector sampleKubectl "=".toList, []) :=
  ⟨((parseConditionKeyValue_first (id : Str → Str)).1 "a ".toList " b = c".toList
      (by decide)).trans (by decide),
   (parseConditionKeyValue_first (id : Str → Str)).2.2.1 "abc".toList (by decide),
   (parseConditionKeyValue_first (id : Str → Str)).2.2.2.1 ([], []) "abc".toList "x".toList
      (by decide),
   by decide⟩

/-! ## The terminal verbs -/

/-- C12, as amended: `Get`, `List`, `Create`, `Update`, `Patch` and `ExecuteCommand`, for
every destination, and `GetLogs`, for every destination and every non-nil log options,
execute the matching callback exactly once, on a working copy whose `Dest` is the
destination, and return that working copy as the callback left it with the error the
callback returned in `Error`; `Delete` does the same on the working copy as `getInstance`
gave it. -/
theorem terminal_verbs {D : Type} (d : Deps D) (cb : Callbacks D) (k : Kubectl D) :
    (∀ dest, ∃ txc, txc.Statement.Dest = dest
        ∧ RanOnce cb .Get txc (Kubectl.Get d cb k dest))
    ∧ (∀ dest opt, ∃ txc, txc.Statement.Dest = dest
        ∧ RanOnce cb .List txc (Kubectl.List d cb k dest opt))
    ∧ (∀ dest, ∃ txc, txc.Statement.Dest = dest
        ∧ RanOnce cb .Create txc (Kubectl.Create d cb k dest))
    ∧ (∀ dest, ∃ txc, txc.Statement.Dest = dest
        ∧ RanOnce cb .Update txc (Kubectl.Update d cb k dest))
    ∧ (∀ dest pt data, ∃ txc, txc.Statement.Dest = dest
        ∧ RanOnce cb .Patch txc (Kubectl.Patch d cb k dest pt data))
    ∧ (∀ dest, ∃ txc, txc.Statement.Dest = dest
        ∧ RanOnce cb .Exec txc (Kubectl.ExecuteCommand d cb k dest))
    ∧ (∀ dest opt, ∃ txc r, txc.Statement.Dest = dest
        ∧ Kubectl.GetLogs d cb k dest (some opt) = .returned r ∧ RanOnce cb .Logs txc r)
    ∧ RanOnce cb .Delete (d.getInstance k) (Kubectl.Delete d cb k) :=
  ⟨fun _ => ⟨_, rfl, rfl, rfl, rfl⟩,
   fun _ _ => ⟨_, rfl, rfl, rfl, rfl⟩,
   fun _ => ⟨_, rfl, rfl, rfl, rfl⟩,
   fun _ => ⟨_, rfl, rfl, rfl, rfl⟩,
   fun _ _ _ => ⟨_, rfl, rfl, rfl, rfl⟩,
   fun _ => ⟨_, rfl, rfl, rfl, rfl⟩,
   fun _ _ => ⟨_, _, rfl, rfl, rfl, rfl, rfl⟩,
   ⟨rfl, rfl, rfl⟩⟩

/-- C12, witness: on the sample statement, which has no name, `GetLogs` with the sample
log options and `Get` run their callback once on a working copy with the new destination,
and the error of the callback is the `Error` of the statement holder returned. -/
theorem terminal_verbs_witness :
    (∃ txc r, txc.Statement.Dest = some "new".toList
        ∧ Kubectl.GetLogs sampleDeps sampleCallbacks sampleKubectl (some "new".toList)
            (some sampleLogOptions) = .returned r
        ∧ RanOnce sampleCallbacks .Logs txc r)
    ∧ (∃ txc, txc.Statement.Dest = some "new".toList
        ∧ RanOnce sampleCallbacks .Get txc
            (Kubectl.Get sampleDeps sampleCallbacks sampleKubectl (some "new".toList)))
    ∧ (Kubectl.Get sampleDeps sampleCallbacks sampleKubectl (some "new".toList)).tx.Error
        = some "name required".toList :=
  ⟨(terminal_verbs sampleDeps sampleCallbacks sampleKubectl).2.2.2.2.2.2.1
      (some "new".toList) sampleLogOptions,
   (terminal_verbs sampleDeps sampleCallbacks sampleKubectl).1 (some "new".toList),
   by decide⟩

/-- C12, counterexample: `GetLogs(dest, nil)` faults on the nil log options, before `Dest`
is set and before any callback is executed; it returns no statement holder. -/
theorem GetLogs_nil_options_counterexample :
    Kubectl.GetLogs sampleDeps sampleCallbacks sampleKubectl (some "obj".toList) none
        = .nilDeref
    ∧ ∀ r, Kubectl.GetLogs sampleDeps sampleCallbacks sampleKubectl (some "obj".toList) none
        ≠ .returned r :=
  ⟨rfl, fun _ h => Outcome.noConfusion h⟩

end Kom
